import Mathlib

/-!
# Realtime chat synchronization layer — verification development

Shallow embedding of the client-side conversation/message synchronization
layer of the chat application: the message stream (historical fetch, live
insert events, optimistic sends), the conversation list, the typing
indicator, and the conversation-creation paths (UI insert and SQL helper).

Identifiers are modelled as `String` (the code uses UUID strings), and
creation timestamps as `Nat` (the code stores ISO-8601 strings whose
lexicographic order coincides with chronological order).
-/

namespace ChatApp

/-- Author summary joined onto a message (`profiles` select of
`id, email, full_name`). -/
structure UserSummary where
  id : String
  email : String
  full_name : Option String
deriving DecidableEq

/-- A message as held in the component's local sequence (the `Message` type
of `ChatContainer`). -/
structure Message where
  id : String
  conversation_id : String
  user_id : String
  content : String
  created_at : Nat
  user : Option UserSummary
deriving DecidableEq

/-- A row as returned by the history query: the joined `user` relation
arrives as an array of profiles. -/
structure FetchedRow where
  id : String
  conversation_id : String
  user_id : String
  content : String
  created_at : Nat
  user : List UserSummary
deriving DecidableEq

/-- Read failure of the history fetch (transport/auth error). -/
inductive FetchError where
  | failed (message : String)
deriving DecidableEq

/-- The success-path transformation in `fetchMessages`: extract the first
user of the joined array, or `none` if it is empty. -/
def transformFetched (rows : List FetchedRow) : List Message :=
  rows.map (fun r =>
    { id := r.id, conversation_id := r.conversation_id, user_id := r.user_id,
      content := r.content, created_at := r.created_at, user := r.user.head? })

/-- `fetchMessages` of `ChatContainer`, as a transition on the local message
sequence given the outcome of the query: on success the whole sequence is
replaced by the transformed rows; on error the code only logs
(`console.error`) and leaves the sequence untouched. -/
def fetchMessages (prev : List Message) (result : Except FetchError (List FetchedRow)) :
    List Message :=
  match result with
  | Except.ok rows => transformFetched rows
  | Except.error _ => prev

/-- The secondary author lookup performed by `fetchMessageWithUser`
(`profiles` filtered by `id`). -/
def findProfile (profiles : List UserSummary) (uid : String) : Option UserSummary :=
  profiles.find? (fun p => p.id == uid)

/-- `fetchMessageWithUser` of `ChatContainer`: resolve the author summary for
a live-insert event's message, then append the message to the end of the
local sequence.  The append is unconditional — there is no check against
identifiers already present in the sequence. -/
def fetchMessageWithUser (profiles : List UserSummary) (prev : List Message)
    (message : Message) : List Message :=
  match findProfile profiles message.user_id with
  | some p => prev ++ [{ message with user := some p }]
  | none => prev ++ [message]

/-- The guard `!newMessage.trim()` of `handleSendMessage`: the trimmed text
is empty exactly when every character of the text is whitespace. -/
def isBlank (s : String) : Bool :=
  s.data.all Char.isWhitespace

/-- `handleSendMessage` of `ChatContainer`, as a transition on the local
message sequence: reject blank text, otherwise append the optimistic record
(client-generated `messageId`, current wall-clock `now`) and, if the persist
request fails, remove it again by filtering on its identifier. -/
def handleSendMessage (prev : List Message) (text : String)
    (messageId conversationId userId : String) (now : Nat)
    (persistError : Bool) : List Message :=
  if isBlank text then prev
  else
    let newMessageObj : Message :=
      { id := messageId, conversation_id := conversationId, user_id := userId,
        content := text, created_at := now, user := none }
    let optimistic := prev ++ [newMessageObj]
    if persistError then optimistic.filter (fun msg => msg.id != messageId)
    else optimistic

/-- A sample confirmed message, used as concrete input in several
evaluations. -/
def sampleMsg : Message :=
  { id := "m1", conversation_id := "c1", user_id := "alice", content := "hi",
    created_at := 10, user := none }

/-- C1: the claim says a remote insert event whose identifier is already
present leaves the sequence unchanged.  The code's `fetchMessageWithUser`
appends unconditionally: echoing a message whose identifier `"m1"` is
already in the sequence yields two entries with that identifier. -/
theorem C1_echo_duplicates_identifier :
    ((fetchMessageWithUser [] [sampleMsg] sampleMsg).countP
      (fun m => m.id == "m1")) = 2 := by decide

/-- C2: if the persist request of `handleSendMessage` fails, and the
client-generated identifier is fresh (not already in the pre-send sequence),
the post-rollback sequence is exactly the pre-send sequence. -/
theorem C2_rollback_exact (prev : List Message) (text : String)
    (messageId conversationId userId : String) (now : Nat)
    (htext : isBlank text = false)
    (hfresh : ∀ m ∈ prev, ¬ m.id = messageId) :
    handleSendMessage prev text messageId conversationId userId now true = prev := by
  unfold handleSendMessage
  rw [htext]
  have h1 : prev.filter (fun msg => msg.id != messageId) = prev := by
    refine List.filter_eq_self.mpr ?_
    intro m hm
    simpa [bne] using hfresh m hm
  simp [h1]

/-- Witness for C2 at concrete input. -/
theorem C2_rollback_exact_witness :
    handleSendMessage [sampleMsg] "hello" "m2" "c1" "alice" 20 true = [sampleMsg] :=
  C2_rollback_exact [sampleMsg] "hello" "m2" "c1" "alice" 20
    (by decide) (by decide)

/-- C3 counterexample: the claim says a failed fetch results in an empty or
error view state.  `ChatContainer` has no error state for the message list
(the error is only logged), so the claim requires the sequence to be empty;
but a failed fetch leaves a previously displayed non-empty sequence in
place. -/
theorem C3_failed_fetch_not_empty :
    fetchMessages [sampleMsg] (Except.error (FetchError.failed "network")) ≠ [] := by
  decide

/-- C3 amended: a failed fetch leaves the local message sequence exactly as
it was — no partial data from the failed fetch is ever written (so an
initially empty view stays empty), but an already displayed sequence
remains visible unchanged. -/
theorem C3_failed_fetch_leaves_sequence_unchanged (prev : List Message)
    (e : FetchError) :
    fetchMessages prev (Except.error e) = prev := rfl

/-- The live subscription handler applied to a whole stream of insert events
in delivery order: each event goes through `fetchMessageWithUser`. -/
def applyEvents (profiles : List UserSummary) (msgs events : List Message) :
    List Message :=
  events.foldl (fetchMessageWithUser profiles) msgs

theorem fetchMessageWithUser_map_created_at (profiles : List UserSummary)
    (prev : List Message) (m : Message) :
    (fetchMessageWithUser profiles prev m).map Message.created_at
      = prev.map Message.created_at ++ [m.created_at] := by
  unfold fetchMessageWithUser
  cases findProfile profiles m.user_id <;> simp

theorem applyEvents_map_created_at (profiles : List UserSummary)
    (msgs events : List Message) :
    (applyEvents profiles msgs events).map Message.created_at
      = msgs.map Message.created_at ++ events.map Message.created_at := by
  induction events generalizing msgs with
  | nil => simp [applyEvents]
  | cons e es ih =>
      have hstep : applyEvents profiles msgs (e :: es)
          = applyEvents profiles (fetchMessageWithUser profiles msgs e) es := rfl
      rw [hstep, ih, fetchMessageWithUser_map_created_at]
      simp

/-- C4: starting from a local sequence with non-decreasing timestamps all at
or before the incoming events' timestamps, applying the live handler to a
stream of insert events delivered in persistence order (non-decreasing
timestamps) appends each to the end and keeps the sequence's timestamps
non-decreasing. -/
theorem C4_timestamps_nondecreasing (profiles : List UserSummary)
    (msgs events : List Message)
    (hmsgs : List.Pairwise (· ≤ ·) (msgs.map Message.created_at))
    (hevents : List.Pairwise (· ≤ ·) (events.map Message.created_at))
    (hboundary : ∀ m ∈ msgs, ∀ e ∈ events, m.created_at ≤ e.created_at) :
    List.Pairwise (· ≤ ·) ((applyEvents profiles msgs events).map Message.created_at) := by
  rw [applyEvents_map_created_at]
  refine List.pairwise_append.mpr ⟨hmsgs, hevents, ?_⟩
  intro a ha b hb
  simp only [List.mem_map] at ha hb
  obtain ⟨m, hm, rfl⟩ := ha
  obtain ⟨e, he, rfl⟩ := hb
  exact hboundary m hm e he

/-- A later message used as a concrete remote event. -/
def sampleEvent : Message :=
  { id := "m3", conversation_id := "c1", user_id := "bob", content := "hey",
    created_at := 30, user := none }

/-- Witness for C4 at concrete input. -/
theorem C4_timestamps_nondecreasing_witness :
    List.Pairwise (· ≤ ·)
      ((applyEvents [] [sampleMsg] [sampleEvent]).map Message.created_at) :=
  C4_timestamps_nondecreasing [] [sampleMsg] [sampleEvent]
    (by decide) (by decide) (by decide)

/-- A row of the `conversations` table (claim-relevant columns). -/
structure ConversationRow where
  id : String
  name : String
  is_group : Bool
  created_at : Nat
deriving DecidableEq

/-- A row of the `user_conversations` membership table (claim-relevant
columns; `is_admin` defaults to `false` in the schema). -/
structure MembershipRow where
  user_id : String
  conversation_id : String
  is_admin : Bool
deriving DecidableEq

/-- The backing data set visible to the conversation-list query. -/
structure Db where
  conversations : List ConversationRow
  user_conversations : List MembershipRow
  messages : List Message

/-- Descending conversation creation time, the ordering requested by the
sidebar query. -/
def convDesc (a b : ConversationRow) : Prop :=
  b.created_at ≤ a.created_at

instance : DecidableRel convDesc :=
  fun a b => Nat.decLe b.created_at a.created_at

instance : IsTotal ConversationRow convDesc :=
  ⟨fun a b => Nat.le_total b.created_at a.created_at⟩

instance : IsTrans ConversationRow convDesc :=
  ⟨fun _ _ _ hab hbc => Nat.le_trans hbc hab⟩

/-- The sidebar's `Conversation` record: the conversation columns plus the
(at most one) `last_message` preview. -/
structure SidebarConv where
  id : String
  name : String
  created_at : Nat
  is_group : Bool
  last_message : List Message
deriving DecidableEq

/-- The `user_conversations!inner(user_id)` join filtered by
`user_conversations.user_id = userId`: a conversation survives exactly when
the user holds a membership row for it. -/
def memberOf (db : Db) (userId : String) (c : ConversationRow) : Bool :=
  db.user_conversations.any
    (fun r => r.user_id == userId && r.conversation_id == c.id)

/-- The `last_message:messages(...)` relation with `limit 1` on the foreign
table: at most one associated message. -/
def lastMessagePreview (db : Db) (convId : String) : List Message :=
  (db.messages.filter (fun m => m.conversation_id == convId)).take 1

/-- `fetchConversations` of `ChatSidebar`: all conversations where the user
holds a membership row, ordered by conversation creation time descending,
annotated with the message preview. -/
def fetchConversations (db : Db) (userId : String) : List SidebarConv :=
  (List.insertionSort convDesc (db.conversations.filter (memberOf db userId))).map
    (fun c =>
      { id := c.id, name := c.name, created_at := c.created_at,
        is_group := c.is_group, last_message := lastMessagePreview db c.id })

/-- The refresh transition on the sidebar state: on success
(`if (data) setActiveConversations(data)`) the entire previous list is
replaced by the query result; a failed query leaves it unchanged. -/
def refreshSidebar (prev : List SidebarConv) (db : Db) (userId : String)
    (querySucceeded : Bool) : List SidebarConv :=
  if querySucceeded then fetchConversations db userId else prev

/-- C5: after a successful `refresh(userId)` the sidebar list contains
exactly the conversations for which a membership row exists for that user,
it is ordered by conversation creation time descending, and the result
replaces the previous list entirely (it does not depend on it). -/
theorem C5_refresh_complete (prev : List SidebarConv) (db : Db) (userId : String) :
    (∀ cid : String,
        (∃ s ∈ refreshSidebar prev db userId true, s.id = cid)
          ↔ ∃ c ∈ db.conversations, c.id = cid ∧
              ∃ r ∈ db.user_conversations,
                r.user_id = userId ∧ r.conversation_id = cid)
    ∧ List.Pairwise (fun a b : SidebarConv => b.created_at ≤ a.created_at)
        (refreshSidebar prev db userId true)
    ∧ ∀ prev2 : List SidebarConv,
        refreshSidebar prev db userId true = refreshSidebar prev2 db userId true := by
  refine ⟨?_, ?_, fun prev2 => rfl⟩
  · intro cid
    simp only [refreshSidebar, if_true, fetchConversations, List.mem_map,
      List.mem_insertionSort, List.mem_filter, memberOf, List.any_eq_true,
      Bool.and_eq_true, beq_iff_eq]
    constructor
    · rintro ⟨s, ⟨c, ⟨hc, r, hr, hru, hrc⟩, rfl⟩, hid⟩
      exact ⟨c, hc, hid, r, hr, hru, hrc.trans hid⟩
    · rintro ⟨c, hc, hid, r, hr, hru, hrc⟩
      exact ⟨_, ⟨c, ⟨hc, r, hr, hru, hrc.trans hid.symm⟩, rfl⟩, hid⟩
  · have hs : List.Sorted convDesc
        (List.insertionSort convDesc (db.conversations.filter (memberOf db userId))) :=
      List.sorted_insertionSort convDesc _
    simp only [refreshSidebar, if_true, fetchConversations]
    rw [List.pairwise_map]
    exact hs.imp fun h => h

/-- A callback on the typing state: the set update run at event receipt, or
the removal run by the 2-second `setTimeout`. -/
inductive TypingAction where
  | add (user_id : String)
  | remove (user_id : String)
deriving DecidableEq

/-- One callback of `subscribeToTyping` applied to the active-typer list:
an event adds the user only if not already present; a fired timeout removes
the user unconditionally (`prev.filter(id => id !== user_id)`). -/
def typingStep (prev : List String) (a : TypingAction) : List String :=
  match a with
  | TypingAction.add u => if prev.contains u then prev else prev ++ [u]
  | TypingAction.remove u => prev.filter (fun x => x != u)

/-- Each broadcast typing event `(s, u)` from a non-local user schedules two
callbacks: the set update at its receipt time `s` and the removal at
`s + 2000` milliseconds.  Events from the local user are ignored
(`payload.user_id !== userId`). -/
def typingActions (localUser : String) (events : List (Nat × String)) :
    List (Nat × TypingAction) :=
  events.flatMap (fun e =>
    if e.2 = localUser then []
    else [(e.1, TypingAction.add e.2), (e.1 + 2000, TypingAction.remove e.2)])

/-- Chronological order on timed callbacks. -/
def timeOrder (a b : Nat × TypingAction) : Prop :=
  a.1 ≤ b.1

instance : DecidableRel timeOrder :=
  fun a b => Nat.decLe a.1 b.1

/-- The active-typer list at time `t`: all scheduled callbacks due at or
before `t`, executed in chronological order by the single-threaded event
loop, starting from the empty list. -/
def typingUsersAt (localUser : String) (events : List (Nat × String)) (t : Nat) :
    List String :=
  (List.insertionSort timeOrder
      ((typingActions localUser events).filter (fun a => decide (a.1 ≤ t)))).foldl
    (fun l a => typingStep l a.2) []

/-- C6: after a single typing event from remote user `u` at time `T` with no
further events, `u` is in the active-typer set at `T + 1900` ms and out of it
at `T + 2100` ms — the removal fires at the fixed 2-second window. -/
theorem C6_typing_expiry (T : Nat) (u localUser : String) (h : ¬ u = localUser) :
    typingUsersAt localUser [(T, u)] (T + 1900) = [u]
    ∧ typingUsersAt localUser [(T, u)] (T + 2100) = [] := by
  have hact : typingActions localUser [(T, u)]
      = [(T, TypingAction.add u), (T + 2000, TypingAction.remove u)] := by
    simp [typingActions, h]
  constructor
  · have hfil : List.filter (fun a => decide (a.1 ≤ T + 1900))
        [(T, TypingAction.add u), (T + 2000, TypingAction.remove u)]
        = [(T, TypingAction.add u)] := by
      simp only [List.filter_cons, List.filter_nil, decide_eq_true_eq]
      rw [if_pos (by omega : T ≤ T + 1900),
        if_neg (by omega : ¬ T + 2000 ≤ T + 1900)]
    simp only [typingUsersAt, hact, hfil, List.insertionSort, List.orderedInsert]
    simp [typingStep]
  · have hfil : List.filter (fun a => decide (a.1 ≤ T + 2100))
        [(T, TypingAction.add u), (T + 2000, TypingAction.remove u)]
        = [(T, TypingAction.add u), (T + 2000, TypingAction.remove u)] := by
      simp only [List.filter_cons, List.filter_nil, decide_eq_true_eq]
      rw [if_pos (by omega : T ≤ T + 2100),
        if_pos (by omega : T + 2000 ≤ T + 2100)]
    simp only [typingUsersAt, hact, hfil, List.insertionSort, List.orderedInsert]
    rw [if_pos (show timeOrder (T, TypingAction.add u) (T + 2000, TypingAction.remove u) by
      simp [timeOrder])]
    simp [typingStep, bne]

/-- Witness for C6 at concrete input. -/
theorem C6_typing_expiry_witness :
    typingUsersAt "bob" [(100, "alice")] (100 + 1900) = ["alice"]
    ∧ typingUsersAt "bob" [(100, "alice")] (100 + 2100) = [] :=
  C6_typing_expiry 100 "alice" "bob" (by decide)

/-- C7 counterexample: the claim says that after events from `"u"` at times
0 and 1500, the user stays in the active set until 1500 + 2000 = 3500.  In
the code the first event's timeout removes the user unconditionally at time
2000, so at time 2100 — still before 3500 — the set is already empty. -/
theorem C7_removed_before_second_window :
    typingUsersAt "me" [(0, "u"), (1500, "u")] 2100 = [] ∧ 2100 < 1500 + 2000 := by
  constructor
  · decide
  · decide

/-- C7 amended: a later typing event from the same user before expiry does
not restart the countdown.  Every event schedules an unconditional removal 2
seconds after itself, so once the first event's removal fires (at `T1 +
2000`) the user is out of the active set, even though a second event arrived
at `T2 < T1 + 2000`. -/
theorem C7_second_event_does_not_restart (T1 T2 t : Nat) (u localUser : String)
    (hu : ¬ u = localUser) (h12 : T1 ≤ T2) (hlt : T2 < T1 + 2000)
    (ht : T1 + 2000 ≤ t) :
    typingUsersAt localUser [(T1, u), (T2, u)] t = [] := by
  have hact : typingActions localUser [(T1, u), (T2, u)]
      = [(T1, TypingAction.add u), (T1 + 2000, TypingAction.remove u),
         (T2, TypingAction.add u), (T2 + 2000, TypingAction.remove u)] := by
    simp [typingActions, hu]
  have s1 : List.orderedInsert timeOrder (T2, TypingAction.add u)
      [(T2 + 2000, TypingAction.remove u)]
      = [(T2, TypingAction.add u), (T2 + 2000, TypingAction.remove u)] :=
    List.orderedInsert_of_le _ _ (by simp [timeOrder])
  have s2 : List.orderedInsert timeOrder (T1 + 2000, TypingAction.remove u)
      [(T2, TypingAction.add u), (T2 + 2000, TypingAction.remove u)]
      = [(T2, TypingAction.add u), (T1 + 2000, TypingAction.remove u),
         (T2 + 2000, TypingAction.remove u)] := by
    simp only [List.orderedInsert]
    rw [if_neg (show ¬ timeOrder (T1 + 2000, TypingAction.remove u)
          (T2, TypingAction.add u) from by simp only [timeOrder]; omega),
      if_pos (show timeOrder (T1 + 2000, TypingAction.remove u)
          (T2 + 2000, TypingAction.remove u) from by simp only [timeOrder]; omega)]
  have s3 : List.orderedInsert timeOrder (T1, TypingAction.add u)
      [(T2, TypingAction.add u), (T1 + 2000, TypingAction.remove u),
       (T2 + 2000, TypingAction.remove u)]
      = [(T1, TypingAction.add u), (T2, TypingAction.add u),
         (T1 + 2000, TypingAction.remove u), (T2 + 2000, TypingAction.remove u)] :=
    List.orderedInsert_of_le _ _ (by simpa [timeOrder] using h12)
  by_cases hc : T2 + 2000 ≤ t
  · have hfil : List.filter (fun a => decide (a.1 ≤ t))
        [(T1, TypingAction.add u), (T1 + 2000, TypingAction.remove u),
         (T2, TypingAction.add u), (T2 + 2000, TypingAction.remove u)]
        = [(T1, TypingAction.add u), (T1 + 2000, TypingAction.remove u),
           (T2, TypingAction.add u), (T2 + 2000, TypingAction.remove u)] := by
      simp only [List.filter_cons, List.filter_nil, decide_eq_true_eq]
      rw [if_pos (by omega : T1 ≤ t), if_pos ht, if_pos (by omega : T2 ≤ t),
        if_pos hc]
    have hsort : List.insertionSort timeOrder
        [(T1, TypingAction.add u), (T1 + 2000, TypingAction.remove u),
         (T2, TypingAction.add u), (T2 + 2000, TypingAction.remove u)]
        = [(T1, TypingAction.add u), (T2, TypingAction.add u),
           (T1 + 2000, TypingAction.remove u), (T2 + 2000, TypingAction.remove u)] := by
      simp only [List.insertionSort, List.orderedInsert_nil]
      rw [s1, s2, s3]
    simp only [typingUsersAt, hact, hfil, hsort]
    simp [typingStep, bne]
  · have hfil : List.filter (fun a => decide (a.1 ≤ t))
        [(T1, TypingAction.add u), (T1 + 2000, TypingAction.remove u),
         (T2, TypingAction.add u), (T2 + 2000, TypingAction.remove u)]
        = [(T1, TypingAction.add u), (T1 + 2000, TypingAction.remove u),
           (T2, TypingAction.add u)] := by
      simp only [List.filter_cons, List.filter_nil, decide_eq_true_eq]
      rw [if_pos (by omega : T1 ≤ t), if_pos ht, if_pos (by omega : T2 ≤ t),
        if_neg hc]
    have s4 : List.orderedInsert timeOrder (T1 + 2000, TypingAction.remove u)
        [(T2, TypingAction.add u)]
        = [(T2, TypingAction.add u), (T1 + 2000, TypingAction.remove u)] := by
      simp only [List.orderedInsert]
      rw [if_neg (show ¬ timeOrder (T1 + 2000, TypingAction.remove u)
            (T2, TypingAction.add u) from by simp only [timeOrder]; omega)]
    have s5 : List.orderedInsert timeOrder (T1, TypingAction.add u)
        [(T2, TypingAction.add u), (T1 + 2000, TypingAction.remove u)]
        = [(T1, TypingAction.add u), (T2, TypingAction.add u),
           (T1 + 2000, TypingAction.remove u)] :=
      List.orderedInsert_of_le _ _ (by simpa [timeOrder] using h12)
    have hsort : List.insertionSort timeOrder
        [(T1, TypingAction.add u), (T1 + 2000, TypingAction.remove u),
         (T2, TypingAction.add u)]
        = [(T1, TypingAction.add u), (T2, TypingAction.add u),
           (T1 + 2000, TypingAction.remove u)] := by
      simp only [List.insertionSort, List.orderedInsert_nil]
      rw [s4, s5]
    simp only [typingUsersAt, hact, hfil, hsort]
    simp [typingStep, bne]

/-- Witness for the amended C7 at concrete input. -/
theorem C7_second_event_does_not_restart_witness :
    typingUsersAt "me" [(0, "u"), (1500, "u")] 2050 = [] :=
  C7_second_event_does_not_restart 0 1500 2050 "u" "me"
    (by decide) (by decide) (by decide) (by decide)

/-- A membership row as the UI's `createConversation` inserts it: only
`user_id` and `conversation_id` are supplied. -/
structure MembershipInsert where
  user_id : String
  conversation_id : String
deriving DecidableEq

/-- The schema defaults of `user_conversations` applied to an inserted row:
`is_admin BOOLEAN DEFAULT false`. -/
def applyMembershipDefaults (r : MembershipInsert) : MembershipRow :=
  { user_id := r.user_id, conversation_id := r.conversation_id,
    is_admin := false }

/-- The sidebar's `User` record for search results and selected users. -/
structure UserProfile where
  id : String
  email : String
  full_name : Option String
  username : Option String
deriving DecidableEq

/-- JavaScript `a || b` on an optional string field: falls through to `b`
when the field is `undefined` or the empty string (both falsy). -/
def jsOr (a : Option String) (b : String) : String :=
  match a with
  | some s => if s = "" then b else s
  | none => b

/-- Validation failures of `createConversation`, caught before any insert. -/
inductive CreateConvError where
  | noUserSelected
  | emptyGroupName
deriving DecidableEq

/-- `createConversation` of `ChatSidebar` (success path of the inserts): a
client-generated `conversationId`, the conversation row named after the
group name or — for direct messages — the selected user's
`full_name || username || email`, and one membership row per participant,
current user first, none carrying an admin flag (so the schema default
`false` applies to all of them). -/
def createConversation (userId : String) (selectedUsers : List UserProfile)
    (isGroup : Bool) (groupName : String) (conversationId : String)
    (now : Nat) :
    Except CreateConvError (ConversationRow × List MembershipRow) :=
  match selectedUsers with
  | [] => Except.error CreateConvError.noUserSelected
  | u :: rest =>
    if isGroup && isBlank groupName then
      Except.error CreateConvError.emptyGroupName
    else
      let conversationName :=
        if isGroup then groupName
        else jsOr u.full_name (jsOr u.username u.email)
      let conv : ConversationRow :=
        { id := conversationId, name := conversationName,
          is_group := isGroup, created_at := now }
      let userConversations : List MembershipInsert :=
        { user_id := userId, conversation_id := conversationId }
          :: (u :: rest).map
              (fun v => { user_id := v.id, conversation_id := conversationId })
      Except.ok (conv, userConversations.map applyMembershipDefaults)

/-- The SQL helper `create_group_conversation` (schema file): inserts the
group conversation, the creator's membership row with `is_admin = true`, and
one default membership row per other member (the `description` column is
omitted here as no claim concerns it).  This function is defined in the
schema but never invoked by the application code. -/
def create_group_conversation (creator_id group_name : String)
    (member_ids : List String) (conversationId : String) (now : Nat) :
    ConversationRow × List MembershipRow :=
  let conv : ConversationRow :=
    { id := conversationId, name := group_name, is_group := true,
      created_at := now }
  let creatorRow : MembershipRow :=
    { user_id := creator_id, conversation_id := conversationId,
      is_admin := true }
  let memberRows := (member_ids.filter (fun m => m != creator_id)).map
    (fun m => { user_id := m, conversation_id := conversationId,
                is_admin := false })
  (conv, creatorRow :: memberRows)

/-- A sample selectable user. -/
def samplePeer : UserProfile :=
  { id := "bob", email := "bob@example.com", full_name := some "Bob",
    username := some "bobby" }

/-- C8 counterexample: a group conversation created through the UI's
`createConversation` gives the initiating user (`"alice"`) a membership row
with `is_admin = false` — the UI insert carries no admin flag, so the schema
default applies. -/
theorem C8_ui_group_creator_not_admin :
    createConversation "alice" [samplePeer] true "team" "c9" 50
      = Except.ok
          ({ id := "c9", name := "team", is_group := true, created_at := 50 },
           [{ user_id := "alice", conversation_id := "c9", is_admin := false },
            { user_id := "bob", conversation_id := "c9", is_admin := false }]) :=
  rfl

/-- C8 amended: the initiating user's membership row is created with the
admin flag only on the SQL helper path — `create_group_conversation` inserts
the creator with `is_admin = true` — whereas every membership row created by
the UI's `createConversation` (the only path the application invokes) ends
up with `is_admin = false` from the schema default. -/
theorem C8_admin_only_via_sql_helper :
    (∀ (creator_id group_name conversationId : String)
        (member_ids : List String) (now : Nat),
        ∃ r ∈ (create_group_conversation creator_id group_name member_ids
            conversationId now).2,
          r.user_id = creator_id ∧ r.is_admin = true)
    ∧ ∀ (userId : String) (selectedUsers : List UserProfile) (isGroup : Bool)
        (groupName conversationId : String) (now : Nat)
        (conv : ConversationRow) (rows : List MembershipRow),
        createConversation userId selectedUsers isGroup groupName
            conversationId now = Except.ok (conv, rows) →
        ∀ r ∈ rows, r.is_admin = false := by
  constructor
  · intro creator_id group_name conversationId member_ids now
    exact ⟨_, List.mem_cons_self _ _, rfl, rfl⟩
  · intro userId selectedUsers isGroup groupName conversationId now conv rows h r hr
    cases selectedUsers with
    | nil => simp [createConversation] at h
    | cons u rest =>
      simp only [createConversation] at h
      by_cases hg : (isGroup && isBlank groupName) = true
      · rw [if_pos hg] at h
        simp at h
      · rw [if_neg hg] at h
        simp only [Except.ok.injEq, Prod.mk.injEq] at h
        obtain ⟨-, hrows⟩ := h
        subst hrows
        simp only [List.mem_map] at hr
        obtain ⟨x, -, rfl⟩ := hr
        rfl

/-- Witness for the amended C8 at concrete input. -/
theorem C8_admin_only_via_sql_helper_witness :
    (∃ r ∈ (create_group_conversation "alice" "team" ["bob"] "c9" 50).2,
        r.user_id = "alice" ∧ r.is_admin = true)
    ∧ ∀ r ∈ ([{ user_id := "alice", conversation_id := "c9", is_admin := false },
              { user_id := "bob", conversation_id := "c9", is_admin := false }] :
            List MembershipRow),
        r.is_admin = false :=
  ⟨C8_admin_only_via_sql_helper.1 "alice" "team" "c9" ["bob"] 50,
   C8_admin_only_via_sql_helper.2 "alice" [samplePeer] true "team" "c9" 50
     { id := "c9", name := "team", is_group := true, created_at := 50 }
     [{ user_id := "alice", conversation_id := "c9", is_admin := false },
      { user_id := "bob", conversation_id := "c9", is_admin := false }]
     rfl⟩

/-- The `ChatContainer` state relevant to subscription lifecycle: the active
conversation, the shared message sequence, and the conversation ids with a
live message channel. -/
structure StreamState where
  activeConv : String
  messages : List Message
  subs : List String
deriving DecidableEq

/-- The `useEffect` body run when `conversationId` changes: it starts the
history fetch and calls `subscribeToMessages()`.  `subscribeToMessages`
builds a channel-removal closure and returns it, but the effect body
discards it and the effect itself returns no cleanup — so subscriptions
created for previous conversations are never torn down. -/
def mountConversation (s : StreamState) (conv : String) : StreamState :=
  { activeConv := conv, messages := s.messages, subs := s.subs ++ [conv] }

/-- Completion of a successful history fetch: replaces the sequence. -/
def completeFetch (s : StreamState) (fetched : List Message) : StreamState :=
  { s with messages := fetched }

/-- Delivery of an insert event on the channel subscribed for `subConv`.
The channel filter `conversation_id=eq.{subConv}` admits only matching rows;
the handler then runs `fetchMessageWithUser`, which appends to the shared
sequence without checking whether `subConv` is still the active
conversation. -/
def deliverInsert (profiles : List UserSummary) (s : StreamState)
    (subConv : String) (m : Message) : StreamState :=
  if subConv ∈ s.subs ∧ m.conversation_id = subConv then
    { s with messages := fetchMessageWithUser profiles s.messages m }
  else s

/-- Mounting `"c1"`, completing its fetch, then switching to `"c2"` and
completing that fetch: the `"c1"` subscription survives the switch. -/
def staleScenario : StreamState :=
  completeFetch
    (mountConversation
      (completeFetch
        (mountConversation
          { activeConv := "", messages := [], subs := [] } "c1")
        [])
      "c2")
    []

/-- C9: the claim says the previous conversation's subscription is torn down
on switch, so a stale event never mutates the active sequence.  In the code
the effect cleanup is never returned: after switching from `"c1"` to
`"c2"`, the `"c1"` channel is still subscribed and a `"c1"` insert event is
appended into the sequence displayed for `"c2"`. -/
theorem C9_stale_subscription_mutates_active_sequence :
    "c1" ∈ staleScenario.subs
    ∧ staleScenario.activeConv = "c2"
    ∧ sampleMsg.conversation_id ≠ staleScenario.activeConv
    ∧ (deliverInsert [] staleScenario "c1" sampleMsg).messages
        ≠ staleScenario.messages := by
  refine ⟨by decide, rfl, by decide, by decide⟩

/-- `fetchConversationDetails` reads the shared conversation row's single
`name` column and shows it as the header title; the value a viewer sees does
not depend on who is viewing. -/
def conversationTitle (_viewer : String) (c : ConversationRow) : String :=
  c.name

/-- C10: a direct conversation created with one selected user persists, in
the shared conversation row, the selected user's `full_name` if present and
non-empty, else their `username` if present and non-empty, else their
`email`; and every participant, the selected user included, sees that same
stored name as the conversation title. -/
theorem C10_direct_conversation_name (userId : String) (u : UserProfile)
    (groupName conversationId : String) (now : Nat)
    (conv : ConversationRow) (rows : List MembershipRow)
    (h : createConversation userId [u] false groupName conversationId now
        = Except.ok (conv, rows)) :
    (∀ n, u.full_name = some n → ¬ n = "" → conv.name = n)
    ∧ ((u.full_name = none ∨ u.full_name = some "") →
        ∀ s, u.username = some s → ¬ s = "" → conv.name = s)
    ∧ ((u.full_name = none ∨ u.full_name = some "") →
        (u.username = none ∨ u.username = some "") → conv.name = u.email)
    ∧ ∀ v w : String, conversationTitle v conv = conversationTitle w conv := by
  have hname : conv.name = jsOr u.full_name (jsOr u.username u.email) := by
    simp only [createConversation, Bool.false_and, Bool.false_eq_true,
      if_false, Except.ok.injEq, Prod.mk.injEq] at h
    obtain ⟨hconv, -⟩ := h
    rw [← hconv]
  refine ⟨?_, ?_, ?_, fun v w => rfl⟩
  · intro n hn hne
    rw [hname, hn]
    simp [jsOr, hne]
  · rintro (hf | hf) s hs hse <;> rw [hname, hf, hs] <;> simp [jsOr, hse]
  · rintro (hf | hf) (hu | hu) <;> rw [hname, hf, hu] <;> simp [jsOr]

/-- Witness for C10 at concrete input. -/
theorem C10_direct_conversation_name_witness :
    ConversationRow.name
      { id := "c7", name := "Bob", is_group := false, created_at := 40 }
      = "Bob" :=
  (C10_direct_conversation_name "alice" samplePeer "" "c7" 40
      { id := "c7", name := "Bob", is_group := false, created_at := 40 }
      [{ user_id := "alice", conversation_id := "c7", is_admin := false },
       { user_id := "bob", conversation_id := "c7", is_admin := false }]
      rfl).1 "Bob" rfl (by decide)

end ChatApp
